import Mathlib

/-!
Shallow embedding of the mushroom-map image-to-geography pipeline
(`src/config.py`, `src/image_processor.py`, `src/geo_processor.py`,
`src/kml_processor.py`) and proofs about its specified properties.

Python floats are modelled as rationals (`ℚ`), 8-bit image channels as
naturals, pixel coordinates as integers, and directories of dated files
as finite sets of date keys.
-/

namespace MushroomMap

/-! ## Configuration constants (src/config.py) -/

/-- Cap on retained raw images (`MAX_SAVED_IMAGES = 4`). -/
def MAX_SAVED_IMAGES : ℕ := 4

/-- Target color of the "high probability" class (`HIGH_PROB_RGB`). -/
def HIGH_PROB_RGB : ℕ × ℕ × ℕ := (176, 221, 156)

/-- Target color of the "very high probability" class (`VERY_HIGH_PROB_RGB`). -/
def VERY_HIGH_PROB_RGB : ℕ × ℕ × ℕ := (112, 189, 143)

/-- Multiplicative color tolerance (`RGB_TOLERANCE = 0.03`). -/
def RGB_TOLERANCE : ℚ := 0.03

/-- Sliding-window weights, newest first (`IMAGE_WEIGHTS = [0.4, 0.3, 0.2, 0.1]`). -/
def IMAGE_WEIGHTS : List ℚ := [0.4, 0.3, 0.2, 0.1]

/-- Minimum area threshold for geographic features (`MIN_FEATURE_AREA = 400`). -/
def MIN_FEATURE_AREA : ℕ := 400

/-- Geographic bounding box of the Czech Republic (`CZECH_BOUNDS`). -/
structure GeoBounds where
  north : ℚ
  south : ℚ
  east : ℚ
  west : ℚ

/-- The fixed bounding box from `src/config.py`. -/
def CZECH_BOUNDS : GeoBounds :=
  { north := 51.0557, south := 48.5518, east := 18.8658, west := 12.0964 }

/-- Pixel dimensions of the cropped image (`IMAGE_BOUNDS`); both entries start
as `None` and are set by `update_image_bounds`.  A Python value `None` or `0`
is falsy, which the conversion guards test with `not`. -/
structure ImageBounds where
  width : Option ℕ
  height : Option ℕ

/-- Python truthiness of an optional integer: `None` and `0` are falsy. -/
def truthy : Option ℕ → Bool
  | none => false
  | some n => !(n == 0)

/-! ## Color-mask extractor (`_get_color_mask`, src/image_processor.py) -/

/-- One channel of the inclusive tolerance band test used by
`_get_color_mask`: `target*(1-tol) <= value <= target*(1+tol)`. -/
def channelInBand (value target : ℕ) (tol : ℚ) : Bool :=
  decide ((target : ℚ) * (1 - tol) ≤ (value : ℚ) ∧ (value : ℚ) ≤ (target : ℚ) * (1 + tol))

/-- Per-pixel mask bit of `_get_color_mask`: the pixel is in-mask iff all
three channels lie in their band (`np.all((data >= lower) & (data <= upper))`). -/
def colorMaskBit (pixel target : ℕ × ℕ × ℕ) (tol : ℚ) : Bool :=
  channelInBand pixel.1 target.1 tol &&
  channelInBand pixel.2.1 target.2.1 tol &&
  channelInBand pixel.2.2 target.2.2 tol

/-- Numeric mask value after the `mask / 255.0` normalization in
`create_comparison_map`: 1 where the pixel is in-mask, 0 elsewhere. -/
def maskVal (pixel target : ℕ × ℕ × ℕ) (tol : ℚ) : ℚ :=
  if colorMaskBit pixel target tol then 1 else 0

/-! ## Temporal aggregation (`create_comparison_map`, src/image_processor.py,
multi-image branch, lines 260-288).

A frame is a grid of RGB triples; the per-class probability surface at a cell
is the weighted sum of mask bits over `raw_files_sorted[:len(IMAGE_WEIGHTS)]`,
frame `i` weighted by `IMAGE_WEIGHTS[i]`.  The loop body is
`weights += np.array(_get_color_mask(image, target)) / 255.0 * weight`. -/

/-- A frame: RGB value at (row, column). -/
def Frame : Type := ℕ → ℕ → ℕ × ℕ × ℕ

/-- Per-class accumulated surface at one cell: sum over the paired prefix of
frames and weights of `maskVal * weight`, exactly as the accumulation loop of
`create_comparison_map` computes pointwise. -/
def classSurface (target : ℕ × ℕ × ℕ) : List Frame → List ℚ → ℕ → ℕ → ℚ
  | f :: fs, w :: ws, r, c =>
      maskVal (f r c) target RGB_TOLERANCE * w + classSurface target fs ws r c
  | _, _, _, _ => 0

/-- Occurrence counter of the spec (section 4.2): the number of frames in the
aggregation window whose raw mask is nonzero at the cell.  `create_comparison_map`
computes no such counter; this definition only states the spec's gate. -/
def occurrenceCount (target : ℕ × ℕ × ℕ) : List Frame → List ℚ → ℕ → ℕ → ℕ
  | f :: fs, _ :: ws, r, c =>
      (if colorMaskBit (f r c) target RGB_TOLERANCE then 1 else 0) +
        occurrenceCount target fs ws r c
  | _, _, _, _ => 0

/-- A frame that is the high-probability color everywhere. -/
def frameHigh : Frame := fun _ _ => HIGH_PROB_RGB

/-- A frame that is black everywhere. -/
def frameBlack : Frame := fun _ _ => (0, 0, 0)

/-! ## Coordinate mapper (`GeoProcessor`, src/geo_processor.py) -/

/-- Error message raised by both conversions when the image bounds are unset. -/
def boundsErr : String := "Image bounds not set. Call update_image_bounds() first."

/-- Embedding of `GeoProcessor.pixel_to_coordinates`: guard on the truthiness
of both dimensions (`if not width or not height: raise ValueError`), then
`lon = west + (x/width)*lon_range`, `lat = north - (y/height)*lat_range`. -/
def pixel_to_coordinates (ib : ImageBounds) (x y : ℤ) : Except String (ℚ × ℚ) :=
  if !(truthy ib.width) || !(truthy ib.height) then .error boundsErr
  else
    let w : ℚ := (ib.width.getD 0 : ℕ)
    let h : ℚ := (ib.height.getD 0 : ℕ)
    let lon_range := CZECH_BOUNDS.east - CZECH_BOUNDS.west
    let longitude := CZECH_BOUNDS.west + ((x : ℚ) / w) * lon_range
    let lat_range := CZECH_BOUNDS.north - CZECH_BOUNDS.south
    let latitude := CZECH_BOUNDS.north - ((y : ℚ) / h) * lat_range
    .ok (longitude, latitude)

/-- Python `int(...)` applied to a rational: truncation toward zero. -/
def pyInt (q : ℚ) : ℤ := if 0 ≤ q then ⌊q⌋ else ⌈q⌉

/-- Embedding of `GeoProcessor.coordinates_to_pixel`: same truthiness guard,
then `x = int(((lon - west)/lon_range) * width)` and
`y = int(((north - lat)/lat_range) * height)`. -/
def coordinates_to_pixel (ib : ImageBounds) (longitude latitude : ℚ) :
    Except String (ℤ × ℤ) :=
  if !(truthy ib.width) || !(truthy ib.height) then .error boundsErr
  else
    let w : ℚ := (ib.width.getD 0 : ℕ)
    let h : ℚ := (ib.height.getD 0 : ℕ)
    let lon_range := CZECH_BOUNDS.east - CZECH_BOUNDS.west
    let x := pyInt (((longitude - CZECH_BOUNDS.west) / lon_range) * w)
    let lat_range := CZECH_BOUNDS.north - CZECH_BOUNDS.south
    let y := pyInt (((CZECH_BOUNDS.north - latitude) / lat_range) * h)
    .ok (x, y)

/-! ## Raw-frame retention (`_manage_image_quantity`, src/image_processor.py)

A raw file has a calendar date (the date key embedded in its filename) and a
modification time (`os.path.getmtime`, the arrival/storage time).  The source
sorts the directory listing by `os.path.getmtime` and pops from the front
while the count exceeds `MAX_SAVED_IMAGES`. -/

/-- A raw frame file: its date key and its filesystem modification time. -/
structure RawFile where
  date : ℕ
  mtime : ℕ
deriving DecidableEq

/-- Comparison used by `sorted(..., key=os.path.getmtime)`. -/
def mtimeOrder (a b : RawFile) : Prop := a.mtime ≤ b.mtime

instance : DecidableRel mtimeOrder :=
  fun a b => inferInstanceAs (Decidable (a.mtime ≤ b.mtime))

instance : IsTotal RawFile mtimeOrder :=
  ⟨fun a b => Nat.le_total a.mtime b.mtime⟩

instance : IsTrans RawFile mtimeOrder :=
  ⟨fun _ _ _ hab hbc => le_trans hab hbc⟩

/-- The `while len(images) > MAX_SAVED_IMAGES: os.remove(images.pop(0))` loop:
drop the front of the list while the count exceeds the cap. -/
def evictLoop : List RawFile → List RawFile
  | [] => []
  | f :: rest =>
      if (f :: rest).length > MAX_SAVED_IMAGES then evictLoop rest else f :: rest

/-- Embedding of `_manage_image_quantity`: sort the directory listing by
modification time (Python `sorted` is stable, as is insertion sort), then
evict from the front until within the cap. -/
def manage_image_quantity (files : List RawFile) : List RawFile :=
  evictLoop (List.insertionSort mtimeOrder files)

/-! ## Polygonizer (`GeoProcessor.create_polygon_from_region`,
`GeoProcessor.regions_to_geojson`, src/geo_processor.py) -/

/-- A pixel point `(x, y)` as stored in a region array. -/
abbrev Pt := ℤ × ℤ

/-- Cross product of `a - o` and `b - o`; positive for a left turn. -/
def cross (o a b : Pt) : ℤ :=
  (a.1 - o.1) * (b.2 - o.2) - (a.2 - o.2) * (b.1 - o.1)

/-- Lexicographic order on points, used to sort hull input. -/
def lexLe (p q : Pt) : Prop := p.1 < q.1 ∨ (p.1 = q.1 ∧ p.2 ≤ q.2)

instance : DecidableRel lexLe :=
  fun p q => inferInstanceAs (Decidable (p.1 < q.1 ∨ (p.1 = q.1 ∧ p.2 ≤ q.2)))

/-- One insertion step of the monotone-chain hull: pop the chain (kept in
reverse) while the last two points and the new point fail to make a strict
left turn, then push the new point. -/
def chainStep : List Pt → Pt → List Pt
  | b :: a :: rest, p =>
      if cross a b p ≤ 0 then chainStep (a :: rest) p else p :: b :: a :: rest
  | acc, p => p :: acc

/-- One half (lower or upper) of the monotone-chain hull. -/
def halfHull (pts : List Pt) : List Pt := (pts.foldl chainStep []).reverse

/-- Hull of an already-sorted point list: lower chain plus upper chain, each
without its final point; degenerate (flat) input yields fewer than 3 hull
vertices and is an error. -/
def hullOfSorted (s : List Pt) : Except String (List Pt) :=
  let lower := halfHull s
  let upper := halfHull s.reverse
  let hull := lower.dropLast ++ upper.dropLast
  if hull.length < 3 then .error "QhullError" else .ok hull

deriving instance DecidableEq for Except

/-- Model of the external `scipy.spatial.ConvexHull` (Qhull) on 2-D integer
points, as called by `create_polygon_from_region`: Andrew's monotone-chain
convex hull, returning the hull vertices in hull (counterclockwise) order, and
raising (an error caught by the caller) on degenerate input such as collinear
point sets, matching Qhull's `QhullError`. -/
def convexHull (pts : List Pt) : Except String (List Pt) :=
  hullOfSorted (List.insertionSort lexLe pts)

/-- Embedding of `GeoProcessor.create_polygon_from_region`: regions of fewer
than 3 points produce no polygon; the convex hull vertices are mapped through
`pixel_to_coordinates` (any raised error is caught, producing no polygon); the
ring is closed by appending the first point when the last differs from it. -/
def create_polygon_from_region (ib : ImageBounds) (region : List Pt) : List (ℚ × ℚ) :=
  if region.length < 3 then []
  else
    match convexHull region with
    | .error _ => []
    | .ok hull_points =>
        match hull_points.mapM (fun p => pixel_to_coordinates ib p.1 p.2) with
        | .error _ => []
        | .ok geo_coords =>
            match geo_coords with
            | [] => []
            | g0 :: rest =>
                if (g0 :: rest).getLast (List.cons_ne_nil g0 rest) ≠ g0 then
                  (g0 :: rest) ++ [g0]
                else g0 :: rest

/-- A GeoJSON feature as built by `regions_to_geojson`: the polygon ring plus
the properties that the claims mention (the constant probability label and the
wall-clock creation timestamp are omitted). -/
structure Feature where
  id : ℕ
  date : String
  ring : List (ℚ × ℚ)
  area_pixels : ℕ
deriving DecidableEq

/-- The `for i, region in enumerate(regions)` loop of `regions_to_geojson`,
carrying the enumeration index: a feature with `id = i` is appended exactly
when the polygon has at least 4 coordinates. -/
def regions_to_geojson_aux (ib : ImageBounds) (date_str : String) :
    ℕ → List (List Pt) → List Feature
  | _, [] => []
  | i, region :: rest =>
      let polygon_coords := create_polygon_from_region ib region
      if 4 ≤ polygon_coords.length then
        ⟨i, date_str, polygon_coords, region.length⟩ ::
          regions_to_geojson_aux ib date_str (i + 1) rest
      else regions_to_geojson_aux ib date_str (i + 1) rest

/-- Embedding of `GeoProcessor.regions_to_geojson` (feature list only;
collection metadata carries no claim-relevant structure). -/
def regions_to_geojson (ib : ImageBounds) (regions : List (List Pt)) (date_str : String) :
    List Feature :=
  regions_to_geojson_aux ib date_str 0 regions

/-! ## Region extractor filter (`GeoProcessor.extract_highlighted_regions`,
src/geo_processor.py lines 166-183) -/

/-- The enforced minimum area: `min_area = max(MIN_FEATURE_AREA // 10, 10)`. -/
def extract_min_area : ℕ := max (MIN_FEATURE_AREA / 10) 10

/-- The acceptance filter of the labeling loop: a connected component is kept
iff its pixel count is at least `extract_min_area`. -/
def filter_regions (regions : List (List Pt)) : List (List Pt) :=
  regions.filter (fun r => extract_min_area ≤ r.length)

/-- A concrete 40-pixel connected region (a 10x4 block), exactly at the
enforced minimum area and well below `MIN_FEATURE_AREA`. -/
def region40 : List Pt :=
  (List.range 10).flatMap (fun x => (List.range 4).map (fun y => ((x : ℤ), (y : ℤ))))

/-- The pair computed by a successful `pixel_to_coordinates` call. -/
def geoOfPixel (w h : ℕ) (p : Pt) : ℚ × ℚ :=
  (CZECH_BOUNDS.west + ((p.1 : ℚ) / (w : ℚ)) * (CZECH_BOUNDS.east - CZECH_BOUNDS.west),
   CZECH_BOUNDS.north - ((p.2 : ℚ) / (h : ℚ)) * (CZECH_BOUNDS.north - CZECH_BOUNDS.south))

/-! ## Artifact lifecycle (src/image_processor.py lines 290-306, 309-328;
src/geo_processor.py lines 359-376; src/kml_processor.py lines 219-237)

A directory of date-keyed files is modelled as a finite set of date keys. -/

/-- The three artifact directories: processed images (`PROCESSED_DIR`),
feature collections (`GEOJSON_DIR`), and KML documents (`KML_DIR`). -/
structure ArtifactStore where
  processed : Finset ℕ
  geojson : Finset ℕ
  kml : Finset ℕ
deriving DecidableEq

/-- One successful processing run for date `d` along the multi-image branch of
`create_comparison_map`: the processed map for `d` is saved and every other
processed png removed (lines 291, 297-301); `_generate_geojson_with_correct_date`
removes every geojson other than the target filename and
`process_image_to_geojson` then writes the new one (lines 322-328, 363);
`process_geojson_to_kml` writes `mushroom_areas_d.kml` only when the feature
collection is nonempty (`if geojson_data.get("features")`) and deletes
nothing. -/
def runStep (s : ArtifactStore) (d : ℕ) (hasFeatures : Bool) : ArtifactStore :=
  { processed := (insert d s.processed).filter (· = d)
    geojson := insert d (s.geojson.filter (· = d))
    kml := if hasFeatures then insert d s.kml else s.kml }

/-- A sequence of successful runs, oldest first; each run carries its date key
and whether its feature collection was nonempty. -/
def runAll (s : ArtifactStore) (runs : List (ℕ × Bool)) : ArtifactStore :=
  runs.foldl (fun t r => runStep t r.1 r.2) s

/-- Date keys of the runs that produced at least one feature. -/
def flaggedDates (runs : List (ℕ × Bool)) : Finset ℕ :=
  runs.foldr (fun r acc => if r.2 then insert r.1 acc else acc) ∅

/-! ## Helper lemmas -/

lemma runStep_processed (s : ArtifactStore) (d : ℕ) (f : Bool) :
    (runStep s d f).processed = {d} := by
  simp only [runStep]
  rw [Finset.filter_eq']
  simp

lemma runStep_geojson (s : ArtifactStore) (d : ℕ) (f : Bool) :
    (runStep s d f).geojson = {d} := by
  simp only [runStep]
  rw [Finset.filter_eq']
  by_cases h : d ∈ s.geojson <;> simp [h]

lemma runAll_processed (s : ArtifactStore) (runs : List (ℕ × Bool)) (h : runs ≠ []) :
    (runAll s runs).processed = {(runs.getLast h).1} ∧
    (runAll s runs).geojson = {(runs.getLast h).1} := by
  induction runs generalizing s with
  | nil => exact absurd rfl h
  | cons r rs ih =>
      cases rs with
      | nil =>
          simp only [runAll, List.foldl, List.getLast]
          exact ⟨runStep_processed s r.1 r.2, runStep_geojson s r.1 r.2⟩
      | cons r2 rs2 =>
          have hne : r2 :: rs2 ≠ [] := by simp
          have := ih (runStep s r.1 r.2) hne
          simpa [runAll, List.getLast_cons] using this

lemma runAll_kml (s : ArtifactStore) (runs : List (ℕ × Bool)) :
    (runAll s runs).kml = s.kml ∪ flaggedDates runs := by
  induction runs generalizing s with
  | nil => simp [runAll, flaggedDates]
  | cons r rs ih =>
      have step : runAll s (r :: rs) = runAll (runStep s r.1 r.2) rs := rfl
      rw [step, ih]
      by_cases h : r.2 = true
      · simp [runStep, flaggedDates, h, Finset.insert_union, Finset.union_insert]
      · simp only [Bool.not_eq_true] at h
        simp [runStep, flaggedDates, h]

lemma mem_flaggedDates {a : ℕ} {runs : List (ℕ × Bool)} (h : a ∈ flaggedDates runs) :
    a ∈ runs.map Prod.fst := by
  induction runs with
  | nil => simp [flaggedDates] at h
  | cons r rs ih =>
      by_cases hf : r.2 = true
      · simp only [flaggedDates, List.foldr, hf, if_true] at h
        rcases Finset.mem_insert.mp h with h | h
        · simp [h]
        · exact List.mem_cons_of_mem _ (ih h)
      · simp only [Bool.not_eq_true] at hf
        simp only [flaggedDates, List.foldr, hf, Bool.false_eq_true, if_false] at h
        exact List.mem_cons_of_mem _ (ih h)

lemma flaggedDates_card (runs : List (ℕ × Bool)) (hnd : (runs.map Prod.fst).Nodup)
    (hall : ∀ r ∈ runs, r.2 = true) : (flaggedDates runs).card = runs.length := by
  induction runs with
  | nil => simp [flaggedDates]
  | cons r rs ih =>
      have hf : r.2 = true := hall r (List.mem_cons_self r rs)
      have hstep : flaggedDates (r :: rs) = insert r.1 (flaggedDates rs) := by
        simp [flaggedDates, hf]
      have hnotin : r.1 ∉ flaggedDates rs := by
        intro hmem
        have := mem_flaggedDates hmem
        simp only [List.map_cons, List.nodup_cons] at hnd
        exact hnd.1 this
      rw [hstep, Finset.card_insert_of_not_mem hnotin,
        ih (by simpa using hnd.of_cons) (fun x hx => hall x (List.mem_cons_of_mem _ hx))]
      simp

/-- The eviction loop keeps the final `MAX_SAVED_IMAGES` entries of the list. -/
lemma evictLoop_eq_drop (l : List RawFile) :
    evictLoop l = l.drop (l.length - MAX_SAVED_IMAGES) := by
  induction l with
  | nil => simp [evictLoop]
  | cons f rest ih =>
      rw [evictLoop]
      by_cases h : (f :: rest).length > MAX_SAVED_IMAGES
      · rw [if_pos h, ih]
        have hlen : rest.length + 1 - MAX_SAVED_IMAGES = rest.length - MAX_SAVED_IMAGES + 1 := by
          simp only [List.length_cons, MAX_SAVED_IMAGES] at h ⊢
          omega
        simp only [List.length_cons, hlen, List.drop_succ_cons]
      · rw [if_neg h]
        have hlen : (f :: rest).length - MAX_SAVED_IMAGES = 0 := by omega
        rw [hlen, List.drop_zero]

lemma cross_swap12 (a b c : Pt) : cross b a c = -cross a b c := by
  simp only [cross]
  ring

lemma cross_swap23 (a b c : Pt) : cross a c b = -cross a b c := by
  simp only [cross]
  ring

lemma cross_rot (a b c : Pt) : cross b c a = cross a b c := by
  simp only [cross]
  ring

lemma cross_ne_zero_distinct (a b c : Pt) (h : cross a b c ≠ 0) :
    a ≠ b ∧ a ≠ c ∧ b ≠ c := by
  refine ⟨?_, ?_, ?_⟩
  · rintro rfl
    exact h (by simp [cross])
  · rintro rfl
    apply h
    simp only [cross]
    ring
  · rintro rfl
    apply h
    simp only [cross]
    ring

/-- Monotone-chain hull of a 3-element list whose points are not collinear:
three hull vertices, ordered counterclockwise. -/
lemma hullOfSorted_three (q0 q1 q2 : Pt) (h : cross q0 q1 q2 ≠ 0) :
    hullOfSorted [q0, q1, q2] =
      .ok (if 0 < cross q0 q1 q2 then [q0, q1, q2] else [q0, q2, q1]) := by
  have hswap : cross q2 q1 q0 = -cross q0 q1 q2 := by
    simp only [cross]
    ring
  rcases lt_or_gt_of_ne h with hneg | hpos
  · have h1 : cross q0 q1 q2 ≤ 0 := hneg.le
    have h2 : ¬cross q2 q1 q0 ≤ 0 := by rw [hswap]; linarith
    rw [if_neg (not_lt.mpr h1)]
    simp [hullOfSorted, halfHull, chainStep, h1, h2]
  · have h1 : ¬cross q0 q1 q2 ≤ 0 := by linarith
    have h2 : cross q2 q1 q0 ≤ 0 := by rw [hswap]; linarith
    rw [if_pos hpos]
    simp [hullOfSorted, halfHull, chainStep, h1, h2]

/-- Hull of a non-collinear 3-element sorted list: three pairwise-distinct
vertices. -/
lemma hull3_structure (x y z : Pt) (h : cross x y z ≠ 0) :
    ∃ p q r : Pt, hullOfSorted [x, y, z] = .ok [p, q, r] ∧ p ≠ q ∧ p ≠ r ∧ q ≠ r := by
  obtain ⟨hxy, hxz, hyz⟩ := cross_ne_zero_distinct x y z h
  rw [hullOfSorted_three x y z h]
  by_cases hpos : 0 < cross x y z
  · exact ⟨x, y, z, by rw [if_pos hpos], hxy, hxz, hyz⟩
  · exact ⟨x, z, y, by rw [if_neg hpos], hxz, hxy, fun hh => hyz hh.symm⟩

/-- `convexHull` of any non-collinear 3-point list yields three pairwise
distinct vertices (insertion sort permutes the points, which flips at most
the sign of the cross product). -/
lemma convexHull_three (a b c : Pt) (h : cross a b c ≠ 0) :
    ∃ p q r : Pt, convexHull [a, b, c] = .ok [p, q, r] ∧ p ≠ q ∧ p ≠ r ∧ q ≠ r := by
  unfold convexHull
  by_cases hbc : lexLe b c
  · by_cases hab : lexLe a b
    · have hs : List.insertionSort lexLe [a, b, c] = [a, b, c] := by
        simp [List.insertionSort, List.orderedInsert, hbc, hab]
      rw [hs]
      exact hull3_structure a b c h
    · by_cases hac : lexLe a c
      · have hs : List.insertionSort lexLe [a, b, c] = [b, a, c] := by
          simp [List.insertionSort, List.orderedInsert, hbc, hab, hac]
        rw [hs]
        exact hull3_structure b a c (by rw [cross_swap12]; simpa using h)
      · have hs : List.insertionSort lexLe [a, b, c] = [b, c, a] := by
          simp [List.insertionSort, List.orderedInsert, hbc, hab, hac]
        rw [hs]
        exact hull3_structure b c a (by rw [cross_rot]; exact h)
  · by_cases hac : lexLe a c
    · have hs : List.insertionSort lexLe [a, b, c] = [a, c, b] := by
        simp [List.insertionSort, List.orderedInsert, hbc, hac]
      rw [hs]
      exact hull3_structure a c b (by rw [cross_swap23]; simpa using h)
    · by_cases hab : lexLe a b
      · have hs : List.insertionSort lexLe [a, b, c] = [c, a, b] := by
          simp [List.insertionSort, List.orderedInsert, hbc, hac, hab]
        rw [hs]
        refine hull3_structure c a b ?_
        rw [show cross c a b = cross a b c from by simp only [cross]; ring]
        exact h
      · have hs : List.insertionSort lexLe [a, b, c] = [c, b, a] := by
          simp [List.insertionSort, List.orderedInsert, hbc, hac, hab]
        rw [hs]
        refine hull3_structure c b a ?_
        rw [show cross c b a = -cross a b c from by simp only [cross]; ring]
        simpa using h

lemma p2c_some (w h : ℕ) (hw : w ≠ 0) (hh : h ≠ 0) (x y : ℤ) :
    pixel_to_coordinates ⟨some w, some h⟩ x y = .ok (geoOfPixel w h (x, y)) := by
  simp [pixel_to_coordinates, truthy, hw, hh, geoOfPixel]

lemma geoOfPixel_injective (w h : ℕ) (hw : w ≠ 0) (hh : h ≠ 0) :
    Function.Injective (geoOfPixel w h) := by
  intro p q heq
  have hR : (CZECH_BOUNDS.east - CZECH_BOUNDS.west) ≠ (0 : ℚ) := by norm_num [CZECH_BOUNDS]
  have hS : (CZECH_BOUNDS.north - CZECH_BOUNDS.south) ≠ (0 : ℚ) := by norm_num [CZECH_BOUNDS]
  have hw' : (w : ℚ) ≠ 0 := Nat.cast_ne_zero.mpr hw
  have hh' : (h : ℚ) ≠ 0 := Nat.cast_ne_zero.mpr hh
  have h1 := congrArg Prod.fst heq
  have h2 := congrArg Prod.snd heq
  simp only [geoOfPixel] at h1 h2
  have hx : (p.1 : ℚ) = (q.1 : ℚ) := by
    have ha : ((p.1 : ℚ) / w) * (CZECH_BOUNDS.east - CZECH_BOUNDS.west) =
        ((q.1 : ℚ) / w) * (CZECH_BOUNDS.east - CZECH_BOUNDS.west) := by linarith
    have hb := mul_right_cancel₀ hR ha
    field_simp at hb
    exact_mod_cast hb
  have hy : (p.2 : ℚ) = (q.2 : ℚ) := by
    have ha : ((p.2 : ℚ) / h) * (CZECH_BOUNDS.north - CZECH_BOUNDS.south) =
        ((q.2 : ℚ) / h) * (CZECH_BOUNDS.north - CZECH_BOUNDS.south) := by linarith
    have hb := mul_right_cancel₀ hS ha
    field_simp at hb
    exact_mod_cast hb
  have hx' : p.1 = q.1 := by exact_mod_cast hx
  have hy' : p.2 = q.2 := by exact_mod_cast hy
  exact Prod.ext hx' hy'

/-- `create_polygon_from_region` on a non-collinear 3-point region with set
nonzero dimensions: a closed 4-point ring. -/
lemma create_polygon_three (w h : ℕ) (hw : w ≠ 0) (hh : h ≠ 0) (a b c : Pt)
    (hcr : cross a b c ≠ 0) :
    ∃ g0 g1 g2 : ℚ × ℚ,
      create_polygon_from_region ⟨some w, some h⟩ [a, b, c] = [g0, g1, g2, g0] := by
  obtain ⟨p, q, r, hhull, hpq, hpr, hqr⟩ := convexHull_three a b c hcr
  refine ⟨geoOfPixel w h p, geoOfPixel w h q, geoOfPixel w h r, ?_⟩
  have hfun : (fun t : Pt => pixel_to_coordinates ⟨some w, some h⟩ t.1 t.2) =
      (fun t : Pt => Except.ok (geoOfPixel w h t)) :=
    funext fun t => p2c_some w h hw hh t.1 t.2
  have hne : geoOfPixel w h r ≠ geoOfPixel w h p :=
    fun hgeq => hpr ((geoOfPixel_injective w h hw hh hgeq).symm)
  simp only [create_polygon_from_region, List.length_cons, List.length_nil]
  rw [if_neg (by norm_num), hhull, hfun]
  simp [List.getLast, hne, List.mapM.loop, Bind.bind, Except.bind, Pure.pure, Except.pure]

/-- `create_polygon_from_region` when the hull has 4 vertices whose first and
last differ: a closed 5-point ring. -/
lemma create_polygon_four (w h : ℕ) (hw : w ≠ 0) (hh : h ≠ 0) (region : List Pt)
    (hlen : ¬region.length < 3) (p q r s : Pt)
    (hhull : convexHull region = .ok [p, q, r, s]) (hps : p ≠ s) :
    ∃ g0 g1 g2 g3 : ℚ × ℚ,
      create_polygon_from_region ⟨some w, some h⟩ region = [g0, g1, g2, g3, g0] := by
  refine ⟨geoOfPixel w h p, geoOfPixel w h q, geoOfPixel w h r, geoOfPixel w h s, ?_⟩
  have hfun : (fun t : Pt => pixel_to_coordinates ⟨some w, some h⟩ t.1 t.2) =
      (fun t : Pt => Except.ok (geoOfPixel w h t)) :=
    funext fun t => p2c_some w h hw hh t.1 t.2
  have hne : geoOfPixel w h s ≠ geoOfPixel w h p :=
    fun hgeq => hps ((geoOfPixel_injective w h hw hh hgeq).symm)
  simp only [create_polygon_from_region]
  rw [if_neg hlen, hhull, hfun]
  simp [List.getLast, hne, List.mapM.loop, Bind.bind, Except.bind, Pure.pure, Except.pure]

lemma regions_aux_mem (ib : ImageBounds) (date : String) :
    ∀ (i : ℕ) (rs : List (List Pt)) (f : Feature),
      f ∈ regions_to_geojson_aux ib date i rs →
      ∃ j, j < rs.length ∧ f.id = i + j ∧
        f.ring = create_polygon_from_region ib (rs.getD j []) ∧
        4 ≤ f.ring.length ∧ f.area_pixels = (rs.getD j []).length ∧ f.date = date := by
  intro i rs
  induction rs generalizing i with
  | nil => intro f hf; simp [regions_to_geojson_aux] at hf
  | cons r rest ih =>
      intro f hf
      rw [regions_to_geojson_aux] at hf
      by_cases hcond : 4 ≤ (create_polygon_from_region ib r).length
      · rw [if_pos hcond] at hf
        rcases List.mem_cons.mp hf with hf | hf
        · refine ⟨0, by simp, ?_, ?_, ?_, ?_, ?_⟩ <;> simp [hf, hcond]
        · obtain ⟨j, hj, hid, hring, hlen4, harea, hdate⟩ := ih (i + 1) f hf
          refine ⟨j + 1, by simpa using hj, by omega, ?_, hlen4, ?_, hdate⟩
          · simpa using hring
          · simpa using harea
      · rw [if_neg hcond] at hf
        obtain ⟨j, hj, hid, hring, hlen4, harea, hdate⟩ := ih (i + 1) f hf
        refine ⟨j + 1, by simpa using hj, by omega, ?_, hlen4, ?_, hdate⟩
        · simpa using hring
        · simpa using harea

lemma regions_aux_chain (ib : ImageBounds) (date : String) :
    ∀ (i : ℕ) (rs : List (List Pt)),
      List.Chain' (fun f g : Feature => f.id < g.id) (regions_to_geojson_aux ib date i rs) := by
  intro i rs
  induction rs generalizing i with
  | nil => simp [regions_to_geojson_aux]
  | cons r rest ih =>
      rw [regions_to_geojson_aux]
      by_cases hcond : 4 ≤ (create_polygon_from_region ib r).length
      · rw [if_pos hcond]
        refine List.chain'_cons'.mpr ⟨?_, ih (i + 1)⟩
        intro g hg
        have hmem := List.mem_of_mem_head? hg
        obtain ⟨j, _, hid, _⟩ := regions_aux_mem ib date (i + 1) rest g hmem
        simp only [hid]
        omega
      · rw [if_neg hcond]
        exact ih (i + 1)

lemma regions_aux_length (ib : ImageBounds) (date : String) :
    ∀ (i : ℕ) (rs : List (List Pt)),
      (regions_to_geojson_aux ib date i rs).length =
        (rs.filter (fun r => 4 ≤ (create_polygon_from_region ib r).length)).length := by
  intro i rs
  induction rs generalizing i with
  | nil => simp [regions_to_geojson_aux]
  | cons r rest ih =>
      rw [regions_to_geojson_aux]
      by_cases hcond : 4 ≤ (create_polygon_from_region ib r).length
      · rw [if_pos hcond]
        simp [List.filter_cons, hcond, ih (i + 1)]
      · rw [if_neg hcond]
        simp [List.filter_cons, hcond, ih (i + 1)]

lemma regions_aux_all_ids (ib : ImageBounds) (date : String) :
    ∀ (i : ℕ) (rs : List (List Pt)),
      (∀ r ∈ rs, 4 ≤ (create_polygon_from_region ib r).length) →
      (regions_to_geojson_aux ib date i rs).map Feature.id = List.range' i rs.length := by
  intro i rs
  induction rs generalizing i with
  | nil => simp [regions_to_geojson_aux]
  | cons r rest ih =>
      intro hall
      rw [regions_to_geojson_aux]
      rw [if_pos (hall r (List.mem_cons_self r rest))]
      simp only [List.map_cons, List.length_cons, List.range'_succ]
      rw [ih (i + 1) (fun x hx => hall x (List.mem_cons_of_mem _ hx))]

/-- Truncating `a / R * w` to an integer and mapping back through `* R / w`
loses at most `R / w`, for nonnegative `a` and positive `R` and `w`. -/
lemma pyInt_scale_bound (a R : ℚ) (w : ℕ) (hR : 0 < R) (hw : 0 < w) (ha : 0 ≤ a) :
    |((pyInt (a / R * w) : ℚ) / w) * R - a| ≤ R / w := by
  have hw' : (0 : ℚ) < w := by exact_mod_cast hw
  set t : ℚ := a / R * w with ht_def
  have ht : 0 ≤ t := mul_nonneg (div_nonneg ha hR.le) hw'.le
  have hp : pyInt t = ⌊t⌋ := by simp [pyInt, ht]
  have hback : t / w * R = a := by
    field_simp [ht_def]
    ring
  have key : ((⌊t⌋ : ℚ) / w) * R - a = ((⌊t⌋ : ℚ) - t) / w * R := by
    rw [sub_div, sub_mul, hback]
  have habs : |(⌊t⌋ : ℚ) - t| ≤ 1 := by
    rw [abs_le]
    constructor
    · have := Int.lt_floor_add_one t
      linarith
    · have := Int.floor_le t
      linarith
  rw [hp, key, abs_mul, abs_div, abs_of_pos hw', abs_of_pos hR]
  calc |(⌊t⌋ : ℚ) - t| / w * R ≤ 1 / w * R := by gcongr
    _ = R / w := by ring

/-! ## Theorems -/

/-- C5. Color-mask tolerance band: a pixel is in-mask iff every channel lies in
the inclusive band `[target*(1-tol), target*(1+tol)]`; for target
`(176,221,156)` with tolerance `0.03` (upper band of the first channel exactly
`181.28`), pixel `(176,221,156)` is in-mask, `(181,221,156)` is in-mask and
`(182,221,156)` is not; a target channel of `0` matches only the exact value
`0`. -/
theorem C5_mask_tolerance_band :
    (∀ (pixel target : ℕ × ℕ × ℕ) (tol : ℚ),
      colorMaskBit pixel target tol = true ↔
        ((target.1 : ℚ) * (1 - tol) ≤ (pixel.1 : ℚ) ∧
          (pixel.1 : ℚ) ≤ (target.1 : ℚ) * (1 + tol)) ∧
        ((target.2.1 : ℚ) * (1 - tol) ≤ (pixel.2.1 : ℚ) ∧
          (pixel.2.1 : ℚ) ≤ (target.2.1 : ℚ) * (1 + tol)) ∧
        ((target.2.2 : ℚ) * (1 - tol) ≤ (pixel.2.2 : ℚ) ∧
          (pixel.2.2 : ℚ) ≤ (target.2.2 : ℚ) * (1 + tol))) ∧
    (176 : ℚ) * (1 + RGB_TOLERANCE) = 181.28 ∧
    colorMaskBit (176, 221, 156) HIGH_PROB_RGB RGB_TOLERANCE = true ∧
    colorMaskBit (181, 221, 156) HIGH_PROB_RGB RGB_TOLERANCE = true ∧
    colorMaskBit (182, 221, 156) HIGH_PROB_RGB RGB_TOLERANCE = false ∧
    (∀ (v : ℕ) (tol : ℚ), channelInBand v 0 tol = true ↔ v = 0) := by
  refine ⟨?_, ?_, ?_, ?_, ?_, ?_⟩
  · intro pixel target tol
    simp [colorMaskBit, channelInBand, Bool.and_eq_true, decide_eq_true_eq, and_assoc]
  · norm_num [RGB_TOLERANCE]
  · norm_num [colorMaskBit, channelInBand, HIGH_PROB_RGB, RGB_TOLERANCE]
  · norm_num [colorMaskBit, channelInBand, HIGH_PROB_RGB, RGB_TOLERANCE]
  · norm_num [colorMaskBit, channelInBand, HIGH_PROB_RGB, RGB_TOLERANCE]
  · intro v tol
    simp [channelInBand, decide_eq_true_eq]

/-- C6. Pixel-to-geo mapping formula: with the cropped dimensions set to
nonzero values, `pixel_to_coordinates` returns
`lon = west + (x/width)*(east-west)` and `lat = north - (y/height)*(north-south)`;
for the Czech bounds and an 800x600 image, pixel `(0,0)` maps to
`(12.0964, 51.0557)` and pixel `(800,600)` maps to `(18.8658, 48.5518)`. -/
theorem C6_pixel_to_geo_formula :
    (∀ (w h : ℕ) (x y : ℤ), w ≠ 0 → h ≠ 0 →
      pixel_to_coordinates ⟨some w, some h⟩ x y =
        .ok (CZECH_BOUNDS.west + ((x : ℚ) / (w : ℚ)) * (CZECH_BOUNDS.east - CZECH_BOUNDS.west),
             CZECH_BOUNDS.north - ((y : ℚ) / (h : ℚ)) * (CZECH_BOUNDS.north - CZECH_BOUNDS.south))) ∧
    pixel_to_coordinates ⟨some 800, some 600⟩ 0 0 = .ok (12.0964, 51.0557) ∧
    pixel_to_coordinates ⟨some 800, some 600⟩ 800 600 = .ok (18.8658, 48.5518) := by
  refine ⟨?_, ?_, ?_⟩
  · intro w h x y hw hh
    simp [pixel_to_coordinates, truthy, hw, hh]
  · norm_num [pixel_to_coordinates, truthy, CZECH_BOUNDS]
  · norm_num [pixel_to_coordinates, truthy, CZECH_BOUNDS]

/-- C6 witness: the general formula of `C6_pixel_to_geo_formula` instantiated
at the image center pixel of an 800x600 image. -/
theorem C6_pixel_to_geo_formula_witness :
    pixel_to_coordinates ⟨some 800, some 600⟩ 400 300 =
      .ok (CZECH_BOUNDS.west + ((400 : ℚ) / (800 : ℚ)) * (CZECH_BOUNDS.east - CZECH_BOUNDS.west),
           CZECH_BOUNDS.north - ((300 : ℚ) / (600 : ℚ)) * (CZECH_BOUNDS.north - CZECH_BOUNDS.south)) :=
  C6_pixel_to_geo_formula.1 800 600 400 300 (by norm_num) (by norm_num)

/-- C8. UnboundedState error: with the pixel dimensions not yet set (either
dimension still `None`, the initial state of `IMAGE_BOUNDS`), both coordinate
conversions return the `ValueError` and never a coordinate value. -/
theorem C8_unset_bounds_error :
    (∀ (ho : Option ℕ) (x y : ℤ),
      pixel_to_coordinates ⟨none, ho⟩ x y = .error boundsErr) ∧
    (∀ (wo : Option ℕ) (x y : ℤ),
      pixel_to_coordinates ⟨wo, none⟩ x y = .error boundsErr) ∧
    (∀ (ho : Option ℕ) (lon lat : ℚ),
      coordinates_to_pixel ⟨none, ho⟩ lon lat = .error boundsErr) ∧
    (∀ (wo : Option ℕ) (lon lat : ℚ),
      coordinates_to_pixel ⟨wo, none⟩ lon lat = .error boundsErr) ∧
    (∀ (x y : ℤ) (p : ℚ × ℚ), pixel_to_coordinates ⟨none, none⟩ x y ≠ .ok p) ∧
    (∀ (lon lat : ℚ) (p : ℤ × ℤ), coordinates_to_pixel ⟨none, none⟩ lon lat ≠ .ok p) := by
  refine ⟨?_, ?_, ?_, ?_, ?_, ?_⟩
  · intro ho x y
    simp [pixel_to_coordinates, truthy]
  · intro wo x y
    simp [pixel_to_coordinates, truthy]
  · intro ho lon lat
    simp [coordinates_to_pixel, truthy]
  · intro wo lon lat
    simp [coordinates_to_pixel, truthy]
  · intro x y p
    simp [pixel_to_coordinates, truthy]
  · intro lon lat p
    simp [coordinates_to_pixel, truthy]

/-- C7. Coordinate round trip: `coordinates_to_pixel` is `pixel_to_coordinates`
exactly inverted and then truncated (not rounded) to integer indices — the
untruncated rational pixel value maps back to the coordinate exactly — and for
every point inside the bounding box the round trip
`pixel_to_coordinates (coordinates_to_pixel ...)` drifts by at most one pixel's
geographic span, `(east-west)/width` in longitude and `(north-south)/height` in
latitude. -/
theorem C7_round_trip :
    (∀ (w h : ℕ) (lon lat : ℚ), w ≠ 0 → h ≠ 0 →
      coordinates_to_pixel ⟨some w, some h⟩ lon lat =
        .ok (pyInt (((lon - CZECH_BOUNDS.west) / (CZECH_BOUNDS.east - CZECH_BOUNDS.west)) * w),
             pyInt (((CZECH_BOUNDS.north - lat) / (CZECH_BOUNDS.north - CZECH_BOUNDS.south)) * h)) ∧
      CZECH_BOUNDS.west + ((((lon - CZECH_BOUNDS.west) / (CZECH_BOUNDS.east - CZECH_BOUNDS.west)) * w) / w) *
          (CZECH_BOUNDS.east - CZECH_BOUNDS.west) = lon ∧
      CZECH_BOUNDS.north - ((((CZECH_BOUNDS.north - lat) / (CZECH_BOUNDS.north - CZECH_BOUNDS.south)) * h) / h) *
          (CZECH_BOUNDS.north - CZECH_BOUNDS.south) = lat) ∧
    (∀ (w h : ℕ) (lon lat : ℚ) (x y : ℤ) (lon' lat' : ℚ), w ≠ 0 → h ≠ 0 →
      CZECH_BOUNDS.west ≤ lon → lon ≤ CZECH_BOUNDS.east →
      CZECH_BOUNDS.south ≤ lat → lat ≤ CZECH_BOUNDS.north →
      coordinates_to_pixel ⟨some w, some h⟩ lon lat = .ok (x, y) →
      pixel_to_coordinates ⟨some w, some h⟩ x y = .ok (lon', lat') →
      |lon' - lon| ≤ (CZECH_BOUNDS.east - CZECH_BOUNDS.west) / w ∧
      |lat' - lat| ≤ (CZECH_BOUNDS.north - CZECH_BOUNDS.south) / h) := by
  constructor
  · intro w h lon lat hw hh
    refine ⟨?_, ?_, ?_⟩
    · simp [coordinates_to_pixel, truthy, hw, hh]
    · have hw' : (w : ℚ) ≠ 0 := by exact_mod_cast hw
      have hR : (CZECH_BOUNDS.east - CZECH_BOUNDS.west) ≠ 0 := by norm_num [CZECH_BOUNDS]
      field_simp
      ring
    · have hh' : (h : ℚ) ≠ 0 := by exact_mod_cast hh
      have hS : (CZECH_BOUNDS.north - CZECH_BOUNDS.south) ≠ 0 := by norm_num [CZECH_BOUNDS]
      field_simp
      ring
  · intro w h lon lat x y lon' lat' hw hh hlon1 hlon2 hlat1 hlat2 hc hp
    have hw0 : 0 < w := Nat.pos_of_ne_zero hw
    have hh0 : 0 < h := Nat.pos_of_ne_zero hh
    have hR : (0 : ℚ) < CZECH_BOUNDS.east - CZECH_BOUNDS.west := by norm_num [CZECH_BOUNDS]
    have hS : (0 : ℚ) < CZECH_BOUNDS.north - CZECH_BOUNDS.south := by norm_num [CZECH_BOUNDS]
    have hcEval : coordinates_to_pixel ⟨some w, some h⟩ lon lat =
        Except.ok
          (pyInt (((lon - CZECH_BOUNDS.west) / (CZECH_BOUNDS.east - CZECH_BOUNDS.west)) * w),
           pyInt (((CZECH_BOUNDS.north - lat) / (CZECH_BOUNDS.north - CZECH_BOUNDS.south)) * h)) := by
      simp [coordinates_to_pixel, truthy, hw, hh]
    rw [hcEval] at hc
    have hxy := Except.ok.inj hc
    injection hxy with hx1 hy1
    have hpEval : pixel_to_coordinates ⟨some w, some h⟩ x y =
        Except.ok
          (CZECH_BOUNDS.west + ((x : ℚ) / (w : ℚ)) * (CZECH_BOUNDS.east - CZECH_BOUNDS.west),
           CZECH_BOUNDS.north - ((y : ℚ) / (h : ℚ)) * (CZECH_BOUNDS.north - CZECH_BOUNDS.south)) := by
      simp [pixel_to_coordinates, truthy, hw, hh]
    rw [hpEval] at hp
    have hpq := Except.ok.inj hp
    injection hpq with hlon' hlat'
    constructor
    · rw [← hlon', ← hx1]
      have key := pyInt_scale_bound (lon - CZECH_BOUNDS.west)
        (CZECH_BOUNDS.east - CZECH_BOUNDS.west) w hR hw0 (by linarith)
      have rewr : CZECH_BOUNDS.west + ((pyInt ((lon - CZECH_BOUNDS.west) /
            (CZECH_BOUNDS.east - CZECH_BOUNDS.west) * w) : ℚ) / w) *
            (CZECH_BOUNDS.east - CZECH_BOUNDS.west) - lon =
          ((pyInt ((lon - CZECH_BOUNDS.west) / (CZECH_BOUNDS.east - CZECH_BOUNDS.west) * w) : ℚ) / w) *
            (CZECH_BOUNDS.east - CZECH_BOUNDS.west) - (lon - CZECH_BOUNDS.west) := by
        ring
      rw [rewr]
      exact key
    · rw [← hlat', ← hy1]
      have key := pyInt_scale_bound (CZECH_BOUNDS.north - lat)
        (CZECH_BOUNDS.north - CZECH_BOUNDS.south) h hS hh0 (by linarith)
      have rewr : CZECH_BOUNDS.north - ((pyInt ((CZECH_BOUNDS.north - lat) /
            (CZECH_BOUNDS.north - CZECH_BOUNDS.south) * h) : ℚ) / h) *
            (CZECH_BOUNDS.north - CZECH_BOUNDS.south) - lat =
          -(((pyInt ((CZECH_BOUNDS.north - lat) / (CZECH_BOUNDS.north - CZECH_BOUNDS.south) * h) : ℚ) / h) *
            (CZECH_BOUNDS.north - CZECH_BOUNDS.south) - (CZECH_BOUNDS.north - lat)) := by
        ring
      rw [rewr, abs_neg]
      exact key

/-- C7 witness: the round-trip bound of `C7_round_trip` at the in-box point
`(14, 50)` on an 800x600 image, whose pixel is `(224, 252)` and whose round
trip lands on `(13.991832, 50.004062)`. -/
theorem C7_round_trip_witness :
    |(13.991832 : ℚ) - 14| ≤ (CZECH_BOUNDS.east - CZECH_BOUNDS.west) / (800 : ℕ) ∧
    |(50.004062 : ℚ) - 50| ≤ (CZECH_BOUNDS.north - CZECH_BOUNDS.south) / (600 : ℕ) :=
  C7_round_trip.2 800 600 14 50 224 252 13.991832 50.004062
    (by norm_num) (by norm_num)
    (by norm_num [CZECH_BOUNDS]) (by norm_num [CZECH_BOUNDS])
    (by norm_num [CZECH_BOUNDS]) (by norm_num [CZECH_BOUNDS])
    (by norm_num [coordinates_to_pixel, truthy, CZECH_BOUNDS, pyInt])
    (by norm_num [pixel_to_coordinates, truthy, CZECH_BOUNDS])

/-- C1 counterexample: with the shipped weight vector `IMAGE_WEIGHTS`, a cell
whose raw mask is nonzero in exactly 1 of 3 frames has occurrence count 1
(below 2), yet the aggregated surface there is `0.4`, not `0` — the
accumulation loop of `create_comparison_map` applies no overlap-count gate. -/
theorem C1_overlap_gate_counterexample :
    occurrenceCount HIGH_PROB_RGB [frameHigh, frameBlack, frameBlack] IMAGE_WEIGHTS 0 0 = 1 ∧
    classSurface HIGH_PROB_RGB [frameHigh, frameBlack, frameBlack] IMAGE_WEIGHTS 0 0 = 0.4 ∧
    (0.4 : ℚ) ≠ 0 := by
  refine ⟨?_, ?_, by norm_num⟩ <;>
    norm_num [occurrenceCount, classSurface, frameHigh, frameBlack, maskVal, colorMaskBit,
      channelInBand, HIGH_PROB_RGB, RGB_TOLERANCE, IMAGE_WEIGHTS]

/-- C1 amended: no overlap gate exists. For a 3-frame window whose raw color
mask at a cell is nonzero in exactly the newest frame, the occurrence count is
1, and the aggregated per-class surface at that cell equals that frame's weight
`w0` — in particular it is nonzero whenever `w0` is. -/
theorem C1_no_overlap_gate (target : ℕ × ℕ × ℕ) (f0 f1 f2 : Frame) (w0 w1 w2 : ℚ)
    (ws : List ℚ) (r c : ℕ)
    (h0 : colorMaskBit (f0 r c) target RGB_TOLERANCE = true)
    (h1 : colorMaskBit (f1 r c) target RGB_TOLERANCE = false)
    (h2 : colorMaskBit (f2 r c) target RGB_TOLERANCE = false) :
    occurrenceCount target [f0, f1, f2] (w0 :: w1 :: w2 :: ws) r c = 1 ∧
    classSurface target [f0, f1, f2] (w0 :: w1 :: w2 :: ws) r c = w0 := by
  simp [occurrenceCount, classSurface, maskVal, h0, h1, h2]

/-- C1 witness: `C1_no_overlap_gate` instantiated with the high-probability
color present only in the newest of three frames and the shipped weights. -/
theorem C1_no_overlap_gate_witness :
    occurrenceCount HIGH_PROB_RGB [frameHigh, frameBlack, frameBlack]
      ((0.4 : ℚ) :: 0.3 :: 0.2 :: [0.1]) 0 0 = 1 ∧
    classSurface HIGH_PROB_RGB [frameHigh, frameBlack, frameBlack]
      ((0.4 : ℚ) :: 0.3 :: 0.2 :: [0.1]) 0 0 = 0.4 :=
  C1_no_overlap_gate HIGH_PROB_RGB frameHigh frameBlack frameBlack 0.4 0.3 0.2 [0.1] 0 0
    (by norm_num [frameHigh, colorMaskBit, channelInBand, HIGH_PROB_RGB, RGB_TOLERANCE])
    (by norm_num [frameBlack, colorMaskBit, channelInBand, HIGH_PROB_RGB, RGB_TOLERANCE])
    (by norm_num [frameBlack, colorMaskBit, channelInBand, HIGH_PROB_RGB, RGB_TOLERANCE])

/-- C3 counterexample: five retained frames where the newest-dated file (date 5)
has the earliest modification time.  `_manage_image_quantity` evicts exactly
that file and keeps the oldest-dated one (date 1), so eviction is not
oldest-by-date. -/
theorem C3_eviction_counterexample :
    manage_image_quantity
        [⟨5, 1⟩, ⟨1, 2⟩, ⟨2, 3⟩, ⟨3, 4⟩, ⟨4, 5⟩] =
      [⟨1, 2⟩, ⟨2, 3⟩, ⟨3, 4⟩, ⟨4, 5⟩] ∧
    (⟨5, 1⟩ : RawFile) ∉
      manage_image_quantity [⟨5, 1⟩, ⟨1, 2⟩, ⟨2, 3⟩, ⟨3, 4⟩, ⟨4, 5⟩] ∧
    (⟨1, 2⟩ : RawFile) ∈
      manage_image_quantity [⟨5, 1⟩, ⟨1, 2⟩, ⟨2, 3⟩, ⟨3, 4⟩, ⟨4, 5⟩] ∧
    (∀ f ∈ ([⟨5, 1⟩, ⟨1, 2⟩, ⟨2, 3⟩, ⟨3, 4⟩, ⟨4, 5⟩] : List RawFile), f.date ≤ 5) ∧
    (∀ f ∈ ([⟨5, 1⟩, ⟨1, 2⟩, ⟨2, 3⟩, ⟨3, 4⟩, ⟨4, 5⟩] : List RawFile), 1 ≤ f.date) := by
  refine ⟨by decide, by decide, by decide, by decide, by decide⟩

/-- C3 amended: whenever the retained raw-frame count exceeds
`MAX_SAVED_IMAGES`, frames are evicted starting with the oldest by
modification time (arrival/storage time), not by date key: the kept frames are
the `MAX_SAVED_IMAGES` entries of largest mtime, and every evicted frame's
mtime is at most every kept frame's mtime. -/
theorem C3_eviction_by_mtime (files : List RawFile) :
    manage_image_quantity files =
      (List.insertionSort mtimeOrder files).drop (files.length - MAX_SAVED_IMAGES) ∧
    (manage_image_quantity files).length = min files.length MAX_SAVED_IMAGES ∧
    (∀ f g : RawFile, f ∈ files → f ∉ manage_image_quantity files →
      g ∈ manage_image_quantity files → f.mtime ≤ g.mtime) := by
  have hperm := List.perm_insertionSort mtimeOrder files
  have hsortlen : (List.insertionSort mtimeOrder files).length = files.length :=
    hperm.length_eq
  have heq : manage_image_quantity files =
      (List.insertionSort mtimeOrder files).drop (files.length - MAX_SAVED_IMAGES) := by
    rw [manage_image_quantity, evictLoop_eq_drop, hsortlen]
  refine ⟨heq, ?_, ?_⟩
  · rw [heq, List.length_drop, hsortlen]
    omega
  · intro f g hf hfnot hg
    have hsorted := List.sorted_insertionSort mtimeOrder files
    set s := List.insertionSort mtimeOrder files with hs
    set k := files.length - MAX_SAVED_IMAGES with hk
    have hsplit : s = s.take k ++ s.drop k := (List.take_append_drop k s).symm
    have hfs : f ∈ s := hperm.mem_iff.mpr hf
    have hftake : f ∈ s.take k := by
      rw [hsplit] at hfs
      rcases List.mem_append.mp hfs with h | h
      · exact h
      · exact absurd (heq ▸ h) hfnot
    have hgdrop : g ∈ s.drop k := heq ▸ hg
    have hpair : List.Pairwise mtimeOrder (s.take k ++ s.drop k) := by
      rw [← hsplit]
      exact hsorted
    exact (List.pairwise_append.mp hpair).2.2 f hftake g hgdrop

/-- C3 witness: `C3_eviction_by_mtime` applied to the counterexample listing —
the evicted file (date 5, mtime 1) has mtime at most that of the kept file
(date 1, mtime 2). -/
theorem C3_eviction_by_mtime_witness :
    (⟨5, 1⟩ : RawFile).mtime ≤ (⟨1, 2⟩ : RawFile).mtime :=
  (C3_eviction_by_mtime [⟨5, 1⟩, ⟨1, 2⟩, ⟨2, 3⟩, ⟨3, 4⟩, ⟨4, 5⟩]).2.2
    ⟨5, 1⟩ ⟨1, 2⟩ (by decide) (by decide) (by decide)

/-- C2 counterexample: two consecutive successful runs with distinct dates 1
and 2, both emitting features, leave one processed image and one feature
collection (dated 2) but two KML files — `process_geojson_to_kml` never
removes superseded KML documents. -/
theorem C2_artifact_counterexample :
    (runAll ⟨∅, ∅, ∅⟩ [(1, true), (2, true)]).processed = {2} ∧
    (runAll ⟨∅, ∅, ∅⟩ [(1, true), (2, true)]).geojson = {2} ∧
    (runAll ⟨∅, ∅, ∅⟩ [(1, true), (2, true)]).kml = {1, 2} ∧
    (runAll ⟨∅, ∅, ∅⟩ [(1, true), (2, true)]).kml.card = 2 := by
  refine ⟨by decide, by decide, by decide, by decide⟩

/-- C2 amended: after any nonempty sequence of successful runs, exactly one
processed-image file and exactly one feature-collection file exist, both keyed
with the latest run's date; KML documents are never deleted — the KML
directory holds its previous contents plus one file per run date that produced
features, so after N runs with N distinct dates (each producing features,
starting from empty directories) N KML files exist. -/
theorem C2_single_current_artifact (s : ArtifactStore) (runs : List (ℕ × Bool))
    (h : runs ≠ []) :
    (runAll s runs).processed = {(runs.getLast h).1} ∧
    (runAll s runs).geojson = {(runs.getLast h).1} ∧
    (runAll s runs).kml = s.kml ∪ flaggedDates runs ∧
    ((runs.map Prod.fst).Nodup → (∀ r ∈ runs, r.2 = true) → s.kml = ∅ →
      (runAll s runs).kml.card = runs.length) := by
  refine ⟨(runAll_processed s runs h).1, (runAll_processed s runs h).2,
    runAll_kml s runs, ?_⟩
  intro hnd hall hempty
  rw [runAll_kml s runs, hempty, Finset.empty_union]
  exact flaggedDates_card runs hnd hall

/-- C2 witness: `C2_single_current_artifact` at two feature-producing runs
with dates 1 and 2 from empty directories. -/
theorem C2_single_current_artifact_witness :
    (runAll ⟨∅, ∅, ∅⟩ [(1, true), (2, true)]).processed = {2} ∧
    (runAll ⟨∅, ∅, ∅⟩ [(1, true), (2, true)]).kml.card = 2 :=
  ⟨(C2_single_current_artifact ⟨∅, ∅, ∅⟩ [(1, true), (2, true)] (by simp)).1,
   (C2_single_current_artifact ⟨∅, ∅, ∅⟩ [(1, true), (2, true)] (by simp)).2.2.2
     (by decide) (by decide) rfl⟩

/-- C9. Minimum hull size and ring closure: a region of fewer than 3 pixel
points produces no polygon and hence no feature (in particular a 2-point
cluster); a region of exactly 3 non-collinear points (nonzero cross product)
produces a ring of exactly 4 coordinate pairs with the first repeated last;
and every emitted feature's ring has at least 4 coordinate pairs. -/
theorem C9_min_hull_and_ring_closure :
    (∀ (ib : ImageBounds) (region : List Pt), region.length < 3 →
      create_polygon_from_region ib region = []) ∧
    (∀ (ib : ImageBounds) (date : String) (region : List Pt), region.length < 3 →
      regions_to_geojson ib [region] date = []) ∧
    (∀ (w h : ℕ), w ≠ 0 → h ≠ 0 → ∀ a b c : Pt, cross a b c ≠ 0 →
      (create_polygon_from_region ⟨some w, some h⟩ [a, b, c]).length = 4 ∧
      (create_polygon_from_region ⟨some w, some h⟩ [a, b, c]).head? =
        (create_polygon_from_region ⟨some w, some h⟩ [a, b, c]).getLast?) ∧
    (∀ (ib : ImageBounds) (date : String) (regions : List (List Pt)) (f : Feature),
      f ∈ regions_to_geojson ib regions date → 4 ≤ f.ring.length) := by
  have hsmall : ∀ (ib : ImageBounds) (region : List Pt), region.length < 3 →
      create_polygon_from_region ib region = [] := by
    intro ib region hlen
    simp [create_polygon_from_region, hlen]
  refine ⟨hsmall, ?_, ?_, ?_⟩
  · intro ib date region hlen
    simp [regions_to_geojson, regions_to_geojson_aux, hsmall ib region hlen]
  · intro w h hw hh a b c hcr
    obtain ⟨g0, g1, g2, heq⟩ := create_polygon_three w h hw hh a b c hcr
    rw [heq]
    exact ⟨by simp, by simp⟩
  · intro ib date regions f hf
    obtain ⟨j, _, _, _, hlen4, _, _⟩ :=
      regions_aux_mem ib date 0 regions f hf
    exact hlen4

/-- C9 witness: a 2-point region yields no polygon, and the non-collinear
triangle `(0,0), (1,0), (0,1)` on an 800x600 image yields a 4-point ring. -/
theorem C9_min_hull_witness :
    create_polygon_from_region ⟨some 800, some 600⟩ [(5, 5), (6, 6)] = [] ∧
    (create_polygon_from_region ⟨some 800, some 600⟩ [(0, 0), (1, 0), (0, 1)]).length = 4 :=
  ⟨C9_min_hull_and_ring_closure.1 ⟨some 800, some 600⟩ [(5, 5), (6, 6)] (by norm_num),
   (C9_min_hull_and_ring_closure.2.2.1 800 600 (by norm_num) (by norm_num)
      (0, 0) (1, 0) (0, 1) (by decide)).1⟩

/-- C4 counterexample: three input clusters where the middle one (2 points)
fails polygonization.  The emitted features carry ids `[0, 2]`: the second
emitted feature (k = 1) has id 2, so emitted ids are not the sequence
`0, 1, ..., k` of emission positions. -/
theorem C4_id_gap_counterexample :
    (regions_to_geojson ⟨some 800, some 600⟩
        [[(1, 2), (2, 1), (3, 4)], [(5, 5), (6, 6)], [(10, 10), (12, 10), (10, 13)]]
        "01.01.2024").map Feature.id = [0, 2] ∧
    (regions_to_geojson ⟨some 800, some 600⟩
        [[(1, 2), (2, 1), (3, 4)], [(5, 5), (6, 6)], [(10, 10), (12, 10), (10, 13)]]
        "01.01.2024").map Feature.id ≠
      List.range ((regions_to_geojson ⟨some 800, some 600⟩
        [[(1, 2), (2, 1), (3, 4)], [(5, 5), (6, 6)], [(10, 10), (12, 10), (10, 13)]]
        "01.01.2024").length) := by
  obtain ⟨g0, g1, g2, h0⟩ := create_polygon_three 800 600 (by norm_num) (by norm_num)
    (1, 2) (2, 1) (3, 4) (by decide)
  obtain ⟨k0, k1, k2, h2⟩ := create_polygon_three 800 600 (by norm_num) (by norm_num)
    (10, 10) (12, 10) (10, 13) (by decide)
  have h1 : create_polygon_from_region ⟨some 800, some 600⟩ [(5, 5), (6, 6)] = [] := by
    simp [create_polygon_from_region]
  have hmap : (regions_to_geojson ⟨some 800, some 600⟩
      [[(1, 2), (2, 1), (3, 4)], [(5, 5), (6, 6)], [(10, 10), (12, 10), (10, 13)]]
      "01.01.2024").map Feature.id = [0, 2] := by
    simp [regions_to_geojson, regions_to_geojson_aux, h0, h1, h2]
  have hlen : (regions_to_geojson ⟨some 800, some 600⟩
      [[(1, 2), (2, 1), (3, 4)], [(5, 5), (6, 6)], [(10, 10), (12, 10), (10, 13)]]
      "01.01.2024").length = 2 := by
    have hc := congrArg List.length hmap
    simpa using hc
  refine ⟨hmap, ?_⟩
  rw [hmap, hlen]
  decide

/-- C4 amended: each emitted feature is tagged with the 0-based index of its
source cluster in the input list (so ids are strictly increasing but may skip
the indices of clusters whose polygonization was skipped); one feature exists
per successfully polygonized cluster; and when every cluster polygonizes the
k-th emitted feature has id k. -/
theorem C4_feature_ids (ib : ImageBounds) (date : String) (regions : List (List Pt)) :
    (∀ f ∈ regions_to_geojson ib regions date,
      f.id < regions.length ∧
      f.ring = create_polygon_from_region ib (regions.getD f.id []) ∧
      4 ≤ f.ring.length ∧
      f.area_pixels = (regions.getD f.id []).length ∧ f.date = date) ∧
    List.Chain' (fun f g : Feature => f.id < g.id) (regions_to_geojson ib regions date) ∧
    (regions_to_geojson ib regions date).length =
      (regions.filter (fun r => 4 ≤ (create_polygon_from_region ib r).length)).length ∧
    ((∀ r ∈ regions, 4 ≤ (create_polygon_from_region ib r).length) →
      (regions_to_geojson ib regions date).map Feature.id = List.range regions.length) := by
  refine ⟨?_, regions_aux_chain ib date 0 regions, regions_aux_length ib date 0 regions, ?_⟩
  · intro f hf
    obtain ⟨j, hj, hid, hring, hlen4, harea, hdate⟩ :=
      regions_aux_mem ib date 0 regions f hf
    have hidj : f.id = j := by omega
    subst hidj
    exact ⟨by omega, hring, hlen4, harea, hdate⟩
  · intro hall
    rw [regions_to_geojson, regions_aux_all_ids ib date 0 regions hall, List.range_eq_range']

/-- C4 witness: `C4_feature_ids` at a single triangular cluster — the sole
feature has id 0, ring taken from that cluster, and area 3. -/
theorem C4_feature_ids_witness :
    (regions_to_geojson ⟨some 800, some 600⟩ [[(0, 0), (1, 0), (0, 1)]] "01.01.2024").map
      Feature.id = List.range 1 :=
  (C4_feature_ids ⟨some 800, some 600⟩ "01.01.2024" [[(0, 0), (1, 0), (0, 1)]]).2.2.2
    (by
      intro r hr
      rw [List.mem_singleton] at hr
      subst hr
      obtain ⟨g0, g1, g2, heq⟩ := create_polygon_three 800 600 (by norm_num) (by norm_num)
        (0, 0) (1, 0) (0, 1) (by decide)
      rw [heq]
      simp)

/-- C10. Effective minimum region area: the region extractor keeps a connected
component iff its pixel count is at least `max(MIN_FEATURE_AREA // 10, 10) = 40`;
the configured `MIN_FEATURE_AREA = 400` is not the enforced threshold, and a
40-pixel region (well below 400) is retained and produces a Geo Feature. -/
theorem C10_effective_min_area :
    extract_min_area = 40 ∧
    extract_min_area ≠ MIN_FEATURE_AREA ∧
    (∀ (regions : List (List Pt)) (r : List Pt),
      r ∈ filter_regions regions ↔ r ∈ regions ∧ 40 ≤ r.length) ∧
    (∀ (regions : List (List Pt)) (r : List Pt),
      r ∈ regions → 40 ≤ r.length → r.length < MIN_FEATURE_AREA →
        r ∈ filter_regions regions) ∧
    region40.length = 40 ∧ region40.length < MIN_FEATURE_AREA ∧
    (regions_to_geojson ⟨some 800, some 600⟩ [region40] "01.01.2024").length = 1 := by
  have hiff : ∀ (regions : List (List Pt)) (r : List Pt),
      r ∈ filter_regions regions ↔ r ∈ regions ∧ 40 ≤ r.length := by
    intro regions r
    rw [filter_regions, List.mem_filter]
    simp [extract_min_area, MIN_FEATURE_AREA]
  refine ⟨by decide, by decide, hiff, ?_, by decide, by decide, ?_⟩
  · intro regions r hr hge _
    exact (hiff regions r).mpr ⟨hr, hge⟩
  · obtain ⟨g0, g1, g2, g3, hpoly⟩ := create_polygon_four 800 600 (by norm_num)
      (by norm_num) region40 (by decide) (0, 0) (9, 0) (9, 3) (0, 3) (by decide) (by decide)
    simp [regions_to_geojson, regions_to_geojson_aux, hpoly]

/-- C10 witness: `C10_effective_min_area` applied to the concrete 40-pixel
region — it passes the extractor's filter despite being below
`MIN_FEATURE_AREA`. -/
theorem C10_effective_min_area_witness :
    region40 ∈ filter_regions [region40] :=
  C10_effective_min_area.2.2.2.1 [region40] region40
    (by simp) (by decide) (by decide)

end MushroomMap
